import Mathlib

/-!
Verification of the SplitWithMe shared-expense ledger engine.

The definitions below are a shallow embedding of the engine found in
`desktop/app/models.py` and `desktop/app/controllers.py`: Python floats are
modelled as rationals, ids as integers, the remote ledger store as explicit
function-valued oracles, and each store call the engine issues is recorded in
an explicit call trace.  Fallible operations return `Except` or `Option`
values mirroring the exception flow of the source.
-/

namespace SplitWithMe

/-! ## Data model (models.py, classes Amigo and Gasto) -/

/-- Embeds the class `Amigo` (models.py lines 39-90): a person of the group
with a credit accumulator (money owed to them) and a debit accumulator
(money they owe). -/
structure Amigo where
  id : Int
  nombre : String
  credit_balance : ℚ
  debit_balance : ℚ
deriving DecidableEq

/-- Embeds `Amigo.saldo` (models.py line 63): net balance. -/
def Amigo.saldo (a : Amigo) : ℚ := a.credit_balance - a.debit_balance

/-- Wire (dict) representation of a person as exchanged with the ledger
store.  `name`/`id` are always present in the dicts this client produces and
consumes; the balance keys are optional, mirroring `data.get(key, 0.0)`. -/
structure AmigoDict where
  id : Int
  name : String
  credit_balance : Option ℚ
  debit_balance : Option ℚ
deriving DecidableEq

/-- Embeds `Amigo.to_dict` (models.py lines 79-90): the produced dict holds
only the keys `id` and `name`; no balance keys are emitted. -/
def Amigo.to_dict (a : Amigo) : AmigoDict :=
  { id := a.id, name := a.nombre, credit_balance := none, debit_balance := none }

/-- Embeds `amigo_from_dict` (models.py lines 159-178): missing balance keys
default to `0.0`. -/
def amigo_from_dict (d : AmigoDict) : Amigo :=
  { id := d.id
    nombre := d.name
    credit_balance := d.credit_balance.getD 0
    debit_balance := d.debit_balance.getD 0 }

/-- Embeds the class `Gasto` (models.py lines 93-154): a shared expense.
`num_friends` is the stored participant counter used by `split`. -/
structure Gasto where
  id : Int
  descripcion : String
  monto : ℚ
  fecha : String
  pagador_id : Option Int
  deudores_ids : List Int
  credit_balance : ℚ
  num_friends : Int
deriving DecidableEq

/-- Embeds `Gasto.split` (models.py lines 128-140): the even per-person
share, guarded against a zero participant counter. -/
def Gasto.split (g : Gasto) : ℚ :=
  if 0 < g.num_friends then g.monto / (g.num_friends : ℚ) else 0

/-! ## Create expense: share assignment (models.py, Main.add_gasto, steps 3-5) -/

/-- Embeds step 3 of `Main.add_gasto` (models.py lines 566-577): the credit
granted to the payer. -/
def creditoPagador (monto : ℚ) (pagador_id : Int) (deudores_ids : List Int) : ℚ :=
  if pagador_id ∈ deudores_ids then
    monto - monto / (deudores_ids.length : ℚ)
  else
    monto

/-- Embeds steps 4 and 5 of `Main.add_gasto` (models.py lines 579-624): the
sequence of share-amount writes (PUT /expenses/id/friends/fid?amount=v) the
engine issues, in source order: first the payer credit, then one negative
(debit) amount per non-payer participant. -/
def addGastoShareWrites (monto : ℚ) (pagador_id : Int) (deudores_ids : List Int) :
    List (Int × ℚ) :=
  (pagador_id, creditoPagador monto pagador_id deudores_ids) ::
    (if pagador_id ∈ deudores_ids then
      (deudores_ids.filter (fun d => d ≠ pagador_id)).map
        (fun d => (d, -(monto / (deudores_ids.length : ℚ))))
    else
      deudores_ids.map (fun d => (d, -monto / (deudores_ids.length : ℚ))))

/-! ## Claim C3 -/

/-- C3 (counterexample): converting the person (1, Juan, 50, 20) to its wire
dict and back does not preserve the balances: the wire form drops them and
the reader defaults them to 0. -/
theorem claim_C3_counterexample :
    amigo_from_dict (Amigo.to_dict ⟨1, "Juan", 50, 20⟩) = ⟨1, "Juan", 0, 0⟩ ∧
      amigo_from_dict (Amigo.to_dict ⟨1, "Juan", 50, 20⟩) ≠ ⟨1, "Juan", 50, 20⟩ := by
  constructor
  · rfl
  · decide

/-- C3 (amended): the to-dict/from-dict round trip preserves `id` and
`nombre` exactly, while both balances come back as the default 0; hence the
round trip is the identity exactly when both balances are 0. -/
theorem claim_C3_roundtrip (a : Amigo) :
    (amigo_from_dict a.to_dict).id = a.id ∧
      (amigo_from_dict a.to_dict).nombre = a.nombre ∧
      (amigo_from_dict a.to_dict).credit_balance = 0 ∧
      (amigo_from_dict a.to_dict).debit_balance = 0 ∧
      (amigo_from_dict a.to_dict = a ↔ a.credit_balance = 0 ∧ a.debit_balance = 0) := by
  refine ⟨rfl, rfl, rfl, rfl, ?_⟩
  cases a with
  | mk id nombre cb db =>
    simp [amigo_from_dict, Amigo.to_dict, Amigo.mk.injEq, eq_comm]

/-! ## Claim C7 -/

/-- C7: `split` divides the amount by the participant counter when that
counter is positive and yields 0 when the counter is 0; it is a total
function (no exception is possible). -/
theorem claim_C7_split (g : Gasto) :
    (0 < g.num_friends → g.split = g.monto / (g.num_friends : ℚ)) ∧
      (g.num_friends = 0 → g.split = 0) := by
  constructor
  · intro h
    simp [Gasto.split, h]
  · intro h
    simp [Gasto.split, h]

/-- C7 witness: a concrete expense with amount 10 and 4 participants splits
to 10/4. -/
theorem claim_C7_split_witness :
    (Gasto.split ⟨1, "cena", 10, "2024-01-15", some 1, [1, 2, 3, 4], 0, 4⟩) = 10 / (4 : ℚ) :=
  (claim_C7_split ⟨1, "cena", 10, "2024-01-15", some 1, [1, 2, 3, 4], 0, 4⟩).1 (by decide)

/-! ## Claim C1 -/

/-- C1: for a new expense with amount `monto > 0` over a non-empty duplicate
free participant list of length n: if the payer participates, the first
write sets the payer credit to `monto - monto/n` and every other participant
receives exactly the debit amount `monto/n` (written as the negative value
`-(monto/n)`); if the payer does not participate, the first write sets the
payer credit to the full `monto` and every participant receives the debit
amount `monto/n`. -/
theorem claim_C1_add_gasto_shares (monto : ℚ) (pagador_id : Int) (deudores_ids : List Int)
    (hpos : 0 < monto) (hne : deudores_ids ≠ []) (hnd : deudores_ids.Nodup) :
    (pagador_id ∈ deudores_ids →
      (addGastoShareWrites monto pagador_id deudores_ids).head? =
          some (pagador_id, monto - monto / (deudores_ids.length : ℚ)) ∧
        ∀ d ∈ deudores_ids, d ≠ pagador_id →
          ((d, -(monto / (deudores_ids.length : ℚ))) ∈
              addGastoShareWrites monto pagador_id deudores_ids ∧
            ∀ w ∈ addGastoShareWrites monto pagador_id deudores_ids,
              w.1 = d → w.2 = -(monto / (deudores_ids.length : ℚ)))) ∧
    (pagador_id ∉ deudores_ids →
      (addGastoShareWrites monto pagador_id deudores_ids).head? =
          some (pagador_id, monto) ∧
        ∀ d ∈ deudores_ids,
          ((d, -(monto / (deudores_ids.length : ℚ))) ∈
              addGastoShareWrites monto pagador_id deudores_ids ∧
            ∀ w ∈ addGastoShareWrites monto pagador_id deudores_ids,
              w.1 = d → w.2 = -(monto / (deudores_ids.length : ℚ)))) := by
  constructor
  · intro hmem
    refine ⟨by simp [addGastoShareWrites, creditoPagador, hmem], ?_⟩
    intro d hd hdp
    constructor
    · simp only [addGastoShareWrites, if_pos hmem]
      exact List.mem_cons_of_mem _
        (List.mem_map.mpr ⟨d, List.mem_filter.mpr ⟨hd, by simpa using hdp⟩, rfl⟩)
    · intro w hw hw1
      simp only [addGastoShareWrites, if_pos hmem, List.mem_cons] at hw
      rcases hw with h | h
      · exfalso
        apply hdp
        rw [← hw1, h]
      · rcases List.mem_map.mp h with ⟨x, _, rfl⟩
        rfl
  · intro hmem
    refine ⟨by simp [addGastoShareWrites, creditoPagador, hmem], ?_⟩
    intro d hd
    have hdp : d ≠ pagador_id := by
      intro h
      exact hmem (h ▸ hd)
    constructor
    · simp only [addGastoShareWrites, if_neg hmem]
      refine List.mem_cons_of_mem _ (List.mem_map.mpr ⟨d, hd, ?_⟩)
      rw [neg_div]
    · intro w hw hw1
      simp only [addGastoShareWrites, if_neg hmem, List.mem_cons] at hw
      rcases hw with h | h
      · exfalso
        apply hdp
        rw [← hw1, h]
      · rcases List.mem_map.mp h with ⟨x, _, rfl⟩
        exact neg_div _ _

/-- C1 witness: expense of 30 paid by friend 1 among participants 1,2,3:
the payer credit write is 30 - 30/3 and participant 2 receives -(30/3). -/
theorem claim_C1_witness :
    (addGastoShareWrites 30 1 [1, 2, 3]).head? =
        some (1, 30 - 30 / (([1, 2, 3] : List Int).length : ℚ)) ∧
      ((2 : Int), -((30 : ℚ) / (([1, 2, 3] : List Int).length : ℚ))) ∈
        addGastoShareWrites 30 1 [1, 2, 3] := by
  have h := claim_C1_add_gasto_shares 30 1 [1, 2, 3] (by norm_num) (by decide) (by decide)
  have h1 := h.1 (by decide)
  exact ⟨h1.1, (h1.2 2 (by decide) (by decide)).1⟩

/-! ## Delete person (controllers.py, MainController.eliminar_amigo) -/

/-- Embeds the background body `eliminar_amigo_async` of
`MainController.eliminar_amigo` (controllers.py lines 234-271) together with
`Main.eliminar_amigo` (models.py lines 326-346).  `store` is the ledger
store lookup GET /friends/id (the fresh, authoritative copy); `amigos` is
the possibly stale in-memory list.  The result is the pending-balance error
(if any), the final in-memory list, and the list of ids whose store DELETE
was issued. -/
def eliminar_amigo_async (store : Int → Amigo) (amigos : List Amigo) (amigo_id : Int) :
    Option ℚ × List Amigo × List Int :=
  if |(store amigo_id).saldo| < 1 / 100 then
    (none, amigos.filter (fun a => a.id ≠ amigo_id), [amigo_id])
  else
    (some (store amigo_id).saldo, amigos, [])

/-- C5: deletion of a person is decided by the balance fetched freshly from
the store (the in-memory list `amigos` is arbitrary and may be stale): if
the fetched absolute balance is below 0.01 the person is deleted from the
store and filtered out of the in-memory list; otherwise the operation fails
with the pending balance, issues no store delete, and leaves the in-memory
list unchanged. -/
theorem claim_C5_eliminar_amigo (store : Int → Amigo) (amigos : List Amigo) (amigo_id : Int) :
    (|(store amigo_id).saldo| < 1 / 100 →
      eliminar_amigo_async store amigos amigo_id =
        (none, amigos.filter (fun a => a.id ≠ amigo_id), [amigo_id])) ∧
    (¬ |(store amigo_id).saldo| < 1 / 100 →
      eliminar_amigo_async store amigos amigo_id =
        (some (store amigo_id).saldo, amigos, [])) := by
  constructor
  · intro h
    rw [eliminar_amigo_async, if_pos h]
  · intro h
    rw [eliminar_amigo_async, if_neg h]

/-- C5 witness: the store reports friend 1 as settled (credit 5, debit 5)
while the stale in-memory copy still shows a balance of 10; the deletion
proceeds and removes the person from the in-memory list. -/
theorem claim_C5_witness :
    eliminar_amigo_async (fun _ => ⟨1, "Ana", 5, 5⟩) [⟨1, "Ana", 10, 0⟩] 1 =
      (none, ([⟨1, "Ana", 10, 0⟩] : List Amigo).filter (fun a => a.id ≠ 1), [1]) :=
  (claim_C5_eliminar_amigo (fun _ => ⟨1, "Ana", 5, 5⟩) [⟨1, "Ana", 10, 0⟩] 1).1
    (by norm_num [Amigo.saldo])

/-! ## Edit expense (models.py, Main.update_gasto) -/

/-- Embeds the payer inference loop of `Main.update_gasto` (models.py lines
834-847): walk the new participant list in order and pick the first one
whose stored share has credit greater than 0.  `cred` is the store lookup
GET /expenses/id/friends/fid returning that share credit (missing key
defaults to 0). -/
def inferPagador (cred : Int → ℚ) : List Int → Option Int
  | [] => none
  | p :: rest => if 0 < cred p then some p else inferPagador cred rest

/-- Embeds the payer determination of `Main.update_gasto` (models.py lines
830-847): the payload value if present, else the in-memory value, and when
that combination is falsy (absent or 0) the first participant with positive
stored share credit. -/
def choosePagador (cred : Int → ℚ) (payload_pagador : Option Int)
    (actual_pagador : Option Int) (nuevos_participantes : List Int) : Option Int :=
  let pid := match payload_pagador with
    | some v => some v
    | none => actual_pagador
  if pid = none ∨ pid = some 0 then
    match inferPagador cred nuevos_participantes with
    | some p => some p
    | none => pid
  else
    pid

lemma inferPagador_eq_find (cred : Int → ℚ) (l : List Int) :
    inferPagador cred l = l.find? (fun p => decide (0 < cred p)) := by
  induction l with
  | nil => rfl
  | cons p rest ih =>
    by_cases h : 0 < cred p
    · simp [inferPagador, h, List.find?]
    · simp [inferPagador, h, List.find?, ih]

/-- C9: when the update payload carries no payer and the in-memory record
has none, the payer used by apply-edit is the first participant, in the
order of the new participant list, whose stored share credit is positive;
in particular with two candidates both holding positive credit the first
one wins. -/
theorem claim_C9_infer_pagador (cred : Int → ℚ) (nuevos_participantes : List Int) :
    choosePagador cred none none nuevos_participantes =
        nuevos_participantes.find? (fun p => decide (0 < cred p)) ∧
      ∀ p q rest, 0 < cred p → 0 < cred q →
        choosePagador cred none none (p :: q :: rest) = some p := by
  have key : ∀ l : List Int, choosePagador cred none none l =
      l.find? (fun p => decide (0 < cred p)) := by
    intro l
    rw [choosePagador, ← inferPagador_eq_find]
    cases h : inferPagador cred l <;> simp [h]
  refine ⟨key _, ?_⟩
  intro p q rest hp _
  rw [key]
  simp [List.find?, hp]

/-- C9 witness: with participants 1 and 2 both holding positive share
credit, the inferred payer is participant 1, the first in order. -/
theorem claim_C9_witness :
    choosePagador (fun i => if i = 1 ∨ i = 2 then 1 else 0) none none [1, 2] = some 1 :=
  (claim_C9_infer_pagador (fun i => if i = 1 ∨ i = 2 then 1 else 0) [1, 2]).2
    1 2 [] (by norm_num) (by norm_num)

/-- Embeds the credit recomputation of `Main.update_gasto` (models.py lines
849-875): the credit value written for one participant of the new list. -/
def updateNuevoCredito (pagador_id : Int) (monto_nuevo : ℚ)
    (nuevos_participantes : List Int) (participante_id : Int) : ℚ :=
  if participante_id = pagador_id then
    if pagador_id ∈ nuevos_participantes then
      monto_nuevo - monto_nuevo / (nuevos_participantes.length : ℚ)
    else
      monto_nuevo
  else
    0

/-- Embeds the recompute loop of `Main.update_gasto` (models.py lines
849-875): one share write per participant of the new list, in order. -/
def updateShareWrites (pagador_id : Int) (monto_nuevo : ℚ)
    (nuevos_participantes : List Int) : List (Int × ℚ) :=
  nuevos_participantes.map
    (fun pid => (pid, updateNuevoCredito pagador_id monto_nuevo nuevos_participantes pid))

/-- Embeds the recompute trigger of `Main.update_gasto` (models.py line
829): shares are rewritten only when the amount changed or the participant
set changed. -/
def update_gasto_writes (monto_anterior monto_nuevo : ℚ)
    (participantes_actuales nuevos_participantes : List Int) (pagador_id : Int) :
    List (Int × ℚ) :=
  if monto_anterior ≠ monto_nuevo ∨
      participantes_actuales.toFinset ≠ nuevos_participantes.toFinset then
    updateShareWrites pagador_id monto_nuevo nuevos_participantes
  else
    []

/-- C4 (counterexample): editing an expense of 100 down to 60 with the
unchanged participants 1 and 2 and payer 1 writes credit 30 for the payer
but amount 0 for participant 2 - the debit write -(60/2) = -30 claimed for
the other participant is never issued. -/
theorem claim_C4_counterexample :
    update_gasto_writes 100 60 [1, 2] [1, 2] 1 = [(1, 30), (2, 0)] ∧
      ((2 : Int), (-30 : ℚ)) ∉ update_gasto_writes 100 60 [1, 2] [1, 2] 1 := by
  have h1 : update_gasto_writes 100 60 [1, 2] [1, 2] 1 = [(1, 30), (2, 0)] := by
    norm_num [update_gasto_writes, updateShareWrites, updateNuevoCredito]
  refine ⟨h1, ?_⟩
  rw [h1]
  norm_num

/-- C4 (amended): editing the amount of an expense with the two unchanged
participants p and q and payer p recomputes and writes the payer share
credit as the new amount minus its half, and writes credit 0 (not a debit
of half the new amount) for the other participant; the debit is left to the
store. -/
theorem claim_C4_update_writes (p q : Int) (hpq : p ≠ q)
    (monto_anterior monto_nuevo : ℚ) (hm : monto_anterior ≠ monto_nuevo) :
    update_gasto_writes monto_anterior monto_nuevo [p, q] [p, q] p =
      [(p, monto_nuevo - monto_nuevo / 2), (q, 0)] := by
  have h2 : (([p, q] : List Int).length : ℚ) = 2 := by simp
  simp [update_gasto_writes, updateShareWrites, updateNuevoCredito, hm, hpq, hpq.symm, h2]

/-- C4 witness: the spec example, amount 100 edited to 60 with participants
1 and 2 and payer 1. -/
theorem claim_C4_witness :
    update_gasto_writes 100 60 [1, 2] [1, 2] 1 = [(1, 60 - 60 / 2), (2, 0)] :=
  claim_C4_update_writes 1 2 (by decide) 100 60 (by norm_num)

/-! ## Pay balance (models.py, Main.pagar_saldo) -/

/-- One expense-share record of a person, as returned by the store call
GET /friends/id/expenses (models.py lines 945-950). -/
structure ShareRec where
  id : Int
  credit_balance : ℚ
  debit_balance : ℚ
deriving DecidableEq

/-- Embeds the outstanding debt computed at models.py line 963:
`deuda = debit_balance - credit_balance`. -/
def deuda (s : ShareRec) : ℚ := s.debit_balance - s.credit_balance

/-- Embeds the distribution loop of `Main.pagar_saldo` (models.py lines
952-977): walk the share records in store order keeping the remaining
amount; break as soon as it is nonpositive; for a share with positive debt
apply `min remaining debt` as a credit increment (the PUT at line 972) and
decrease the remaining amount; otherwise leave the share alone.  Returns
the updated records and the final remaining amount. -/
def pagarLoop : ℚ → List ShareRec → List ShareRec × ℚ
  | importe_restante, [] => ([], importe_restante)
  | importe_restante, s :: rest =>
    if importe_restante ≤ 0 then
      (s :: rest, importe_restante)
    else if 0 < deuda s then
      ({ s with credit_balance := s.credit_balance + min importe_restante (deuda s) } ::
          (pagarLoop (importe_restante - min importe_restante (deuda s)) rest).1,
        (pagarLoop (importe_restante - min importe_restante (deuda s)) rest).2)
    else
      (s :: (pagarLoop importe_restante rest).1, (pagarLoop importe_restante rest).2)

/-- Embeds `Main.pagar_saldo` (models.py lines 919-981): only the updated
share records survive; the final remaining amount is a discarded local. -/
def pagar_saldo (importe : ℚ) (gastos_amigo : List ShareRec) : List ShareRec :=
  (pagarLoop importe gastos_amigo).1

/-- Modelled from the spec (section 4.5): the per-share credit increments of
a payment walk, written from the spec sentences - for each share with
outstanding debt apply `pay = min(remaining, debt)`, shares with no
outstanding debt are skipped without consuming anything, and once the
remaining amount is nonpositive every later share gets increment 0. -/
def specAlloc : ℚ → List ℚ → List ℚ
  | _, [] => []
  | remaining, d :: ds =>
    if remaining ≤ 0 then 0 :: specAlloc remaining ds
    else if 0 < d then min remaining d :: specAlloc (remaining - min remaining d) ds
    else 0 :: specAlloc remaining ds

lemma specAlloc_of_nonpos (ds : List ℚ) : ∀ r : ℚ, r ≤ 0 →
    specAlloc r ds = List.replicate ds.length 0 := by
  induction ds with
  | nil => intro r _; rfl
  | cons d ds ih =>
    intro r h
    simp [specAlloc, if_pos h, ih r h, List.replicate]

lemma zipWith_add_replicate_zero (l : List ShareRec) :
    List.zipWith (fun s inc => { s with credit_balance := s.credit_balance + inc })
      l (List.replicate l.length 0) = l := by
  induction l with
  | nil => rfl
  | cons s rest ih => simp [List.replicate, ih]

lemma pagarLoop_eq_specAlloc (shares : List ShareRec) : ∀ importe : ℚ,
    (pagarLoop importe shares).1 =
      List.zipWith (fun s inc => { s with credit_balance := s.credit_balance + inc })
        shares (specAlloc importe (shares.map deuda)) ∧
    (pagarLoop importe shares).2 =
      importe - (specAlloc importe (shares.map deuda)).sum := by
  induction shares with
  | nil => intro r; simp [pagarLoop, specAlloc]
  | cons s rest ih =>
    intro r
    by_cases h0 : r ≤ 0
    · have halloc : specAlloc r ((s :: rest).map deuda) =
          List.replicate (s :: rest).length 0 := by
        rw [specAlloc_of_nonpos _ r h0, List.length_map]
      constructor
      · rw [halloc, zipWith_add_replicate_zero]
        simp [pagarLoop, if_pos h0]
      · rw [halloc]
        simp [pagarLoop, if_pos h0, List.sum_replicate]
    · by_cases hd : 0 < deuda s
      · constructor
        · simp only [pagarLoop, if_neg h0, if_pos hd, List.map_cons, specAlloc,
            List.zipWith_cons_cons]
          exact congrArg (List.cons _) (ih _).1
        · simp only [pagarLoop, if_neg h0, if_pos hd, List.map_cons, specAlloc,
            List.sum_cons]
          rw [(ih _).2]
          ring_nf
      · constructor
        · simp only [pagarLoop, if_neg h0, if_neg hd, List.map_cons, specAlloc,
            List.zipWith_cons_cons, add_zero]
          exact congrArg (List.cons _) (ih _).1
        · simp only [pagarLoop, if_neg h0, if_neg hd, List.map_cons, specAlloc,
            List.sum_cons]
          rw [(ih _).2]
          ring_nf

/-- C2: `pagar_saldo` walks the share records in store order with the
remaining amount starting at the payment: every share receives exactly the
spec increment (min of remaining and outstanding debt for indebted shares,
0 for shares without outstanding debt, 0 for every share once the remaining
amount has reached 0), and the leftover `importe - total distributed` is
only the discarded second component of the loop, absent from the result of
`pagar_saldo`. -/
theorem claim_C2_pagar_saldo (importe : ℚ) (gastos_amigo : List ShareRec) :
    pagar_saldo importe gastos_amigo =
      List.zipWith (fun s inc => { s with credit_balance := s.credit_balance + inc })
        gastos_amigo (specAlloc importe (gastos_amigo.map deuda)) ∧
    (pagarLoop importe gastos_amigo).2 =
      importe - (specAlloc importe (gastos_amigo.map deuda)).sum :=
  ⟨(pagarLoop_eq_specAlloc gastos_amigo importe).1,
    (pagarLoop_eq_specAlloc gastos_amigo importe).2⟩

/-- Total outstanding debt over a list of share records: the sum of the
positive parts of the individual debts. -/
def totalDeuda (shares : List ShareRec) : ℚ :=
  (shares.map (fun s => max (deuda s) 0)).sum

lemma totalDeuda_nonneg (shares : List ShareRec) : 0 ≤ totalDeuda shares := by
  refine List.sum_nonneg ?_
  intro x hx
  rcases List.mem_map.mp hx with ⟨s, _, rfl⟩
  exact le_max_right _ _

lemma min_chain (r d T : ℚ) (hT : 0 ≤ T) (hd : 0 < d) (hr : 0 < r) :
    min r d + min (r - min r d) T = min r (d + T) := by
  rcases le_total r d with h | h
  · rw [min_eq_left h, sub_self, min_eq_left hT, add_zero,
      min_eq_left (by linarith : r ≤ d + T)]
  · rw [min_eq_right h]
    rcases le_total (r - d) T with h2 | h2
    · rw [min_eq_left h2, min_eq_left (by linarith : r ≤ d + T)]
      ring
    · rw [min_eq_right h2, min_eq_right (by linarith : d + T ≤ r)]

lemma pagarLoop_bounds (shares : List ShareRec) : ∀ r : ℚ, 0 ≤ r →
    List.Forall₂ (fun s' s => s.credit_balance ≤ s'.credit_balance ∧
        s'.credit_balance - s.credit_balance ≤ max (deuda s) 0 ∧
        s'.debit_balance = s.debit_balance ∧ s'.id = s.id)
      (pagarLoop r shares).1 shares ∧
    ((pagarLoop r shares).1.map (fun s => s.credit_balance)).sum =
      ((shares.map (fun s => s.credit_balance)).sum) + min r (totalDeuda shares) := by
  induction shares with
  | nil =>
    intro r hr
    constructor
    · simp [pagarLoop]
    · simp [pagarLoop, totalDeuda, min_eq_right hr]
  | cons s rest ih =>
    intro r hr
    have htot : totalDeuda (s :: rest) = max (deuda s) 0 + totalDeuda rest := by
      simp [totalDeuda]
    by_cases h0 : r ≤ 0
    · have hr0 : r = 0 := le_antisymm h0 hr
      subst hr0
      constructor
      · simp only [pagarLoop, if_pos le_rfl]
        refine List.forall₂_same.mpr ?_
        intro x _
        exact ⟨le_refl _, by simp, rfl, rfl⟩
      · simp only [pagarLoop, if_pos le_rfl]
        rw [min_eq_left (totalDeuda_nonneg _), add_zero]
    · have hrpos : 0 < r := not_le.mp h0
      by_cases hd : 0 < deuda s
      · have hsub : (0 : ℚ) ≤ r - min r (deuda s) :=
          sub_nonneg.mpr (min_le_left _ _)
        constructor
        · simp only [pagarLoop, if_neg h0, if_pos hd]
          refine List.Forall₂.cons ⟨?_, ?_, rfl, rfl⟩ ((ih _ hsub).1)
          · exact le_add_of_nonneg_right (le_min hrpos.le hd.le)
          · rw [add_sub_cancel_left]
            exact le_trans (min_le_right _ _) (le_max_left _ _)
        · simp only [pagarLoop, if_neg h0, if_pos hd, List.map_cons, List.sum_cons]
          rw [(ih _ hsub).2, htot, max_eq_left hd.le,
            ← min_chain r (deuda s) (totalDeuda rest) (totalDeuda_nonneg rest) hd hrpos]
          ring_nf
      · constructor
        · simp only [pagarLoop, if_neg h0, if_neg hd]
          exact List.Forall₂.cons ⟨le_refl _, by simp, rfl, rfl⟩ (ih r hr).1
        · simp only [pagarLoop, if_neg h0, if_neg hd, List.map_cons, List.sum_cons]
          rw [(ih r hr).2, htot, max_eq_right (not_lt.mp hd)]
          ring_nf

/-- C10: for a positive payment, every share record of the result of
`pagar_saldo` differs from its input record only by a credit increment
between 0 and the positive part of that share outstanding debt (no single
share is over-credited), and the total credit increment across all shares
equals `min importe (totalDeuda shares)` - never more than the payment,
never more than the listed outstanding debt. -/
theorem claim_C10_pagar_bounds (importe : ℚ) (gastos_amigo : List ShareRec)
    (h : 0 < importe) :
    List.Forall₂ (fun s' s => s.credit_balance ≤ s'.credit_balance ∧
        s'.credit_balance - s.credit_balance ≤ max (deuda s) 0 ∧
        s'.debit_balance = s.debit_balance ∧ s'.id = s.id)
      (pagar_saldo importe gastos_amigo) gastos_amigo ∧
    ((pagar_saldo importe gastos_amigo).map (fun s => s.credit_balance)).sum =
      ((gastos_amigo.map (fun s => s.credit_balance)).sum) +
        min importe (totalDeuda gastos_amigo) :=
  ⟨(pagarLoop_bounds gastos_amigo importe h.le).1,
    (pagarLoop_bounds gastos_amigo importe h.le).2⟩

/-- C10 witness: the spec scenario - debts 10 and 20, payment 15: the total
credit increment is min 15 30 = 15. -/
theorem claim_C10_witness :
    ((pagar_saldo 15 [⟨1, 0, 10⟩, ⟨2, 0, 20⟩]).map (fun s => s.credit_balance)).sum =
      ((([⟨1, 0, 10⟩, ⟨2, 0, 20⟩] : List ShareRec).map (fun s => s.credit_balance)).sum) +
        min 15 (totalDeuda [⟨1, 0, 10⟩, ⟨2, 0, 20⟩]) :=
  (claim_C10_pagar_bounds 15 [⟨1, 0, 10⟩, ⟨2, 0, 20⟩] (by norm_num)).2

/-! ## Bulk delete friends (controllers.py, MainController.borrar_todos_amigos) -/

/-- The error raised when there is nothing to delete (controllers.py line
748). -/
inductive BulkErr
  | noFriends
deriving DecidableEq

/-- The result dict of `eliminar_todos_amigos` (controllers.py lines
769-774). -/
structure BulkReport where
  eliminados : Nat
  total : Nat
  errores : List String
deriving DecidableEq

/-- Name lookup over the copied original list (controllers.py lines
761-766): the first person with the given id, else "Unknown". -/
def nombreDe (amigos_originales : List Amigo) (amigo_id : Int) : String :=
  match amigos_originales.find? (fun a => a.id = amigo_id) with
  | some a => a.nombre
  | none => "Unknown"

/-- Intermediate state of the bulk delete loop: deleted count, error
strings, remaining in-memory list and the trace of store DELETE calls. -/
structure BulkState where
  eliminados : Nat
  errores : List String
  amigos : List Amigo
  trace : List Int
deriving DecidableEq

/-- Embeds the loop of `eliminar_todos_amigos` (controllers.py lines
750-767): attempt every id independently; a successful
`Main.eliminar_amigo` (models.py lines 326-346) issues the store DELETE and
filters the id out of the in-memory list; a failing one contributes the
string `name: reason` and deletes nothing.  `delB` gives the store failure
reason for an id, if any. -/
def eliminarTodosLoop (delB : Int → Option String) (amigos_originales : List Amigo) :
    List Int → List Amigo → BulkState
  | [], cur => ⟨0, [], cur, []⟩
  | i :: rest, cur =>
    match delB i with
    | none =>
      let st := eliminarTodosLoop delB amigos_originales rest
        (cur.filter (fun a => a.id ≠ i))
      ⟨st.eliminados + 1, st.errores, st.amigos, i :: st.trace⟩
    | some e =>
      let st := eliminarTodosLoop delB amigos_originales rest cur
      ⟨st.eliminados, (nombreDe amigos_originales i ++ ": " ++ e) :: st.errores,
        st.amigos, i :: st.trace⟩

/-- Embeds `eliminar_todos_amigos` (controllers.py lines 736-774): raise
the nothing-to-delete error on an empty list (no store call), otherwise
run the loop over all ids and report deleted count, total count and the
per-person failures. -/
def eliminar_todos_amigos (delB : Int → Option String) (amigos : List Amigo) :
    Except BulkErr BulkReport × List Amigo × List Int :=
  if amigos.map (fun a => a.id) = [] then
    (Except.error BulkErr.noFriends, amigos, [])
  else
    let st := eliminarTodosLoop delB amigos (amigos.map (fun a => a.id)) amigos
    (Except.ok ⟨st.eliminados, (amigos.map (fun a => a.id)).length, st.errores⟩,
      st.amigos, st.trace)

lemma eliminarTodosLoop_eliminados (delB : Int → Option String)
    (orig : List Amigo) (ids : List Int) : ∀ cur : List Amigo,
    (eliminarTodosLoop delB orig ids cur).eliminados =
      ids.countP (fun i => (delB i).isNone) := by
  induction ids with
  | nil => intro cur; simp [eliminarTodosLoop]
  | cons i rest ih =>
    intro cur
    cases h : delB i with
    | none => simp [eliminarTodosLoop, h, ih, List.countP_cons]
    | some e => simp [eliminarTodosLoop, h, ih, List.countP_cons]

lemma eliminarTodosLoop_trace (delB : Int → Option String)
    (orig : List Amigo) (ids : List Int) : ∀ cur : List Amigo,
    (eliminarTodosLoop delB orig ids cur).trace = ids := by
  induction ids with
  | nil => intro cur; simp [eliminarTodosLoop]
  | cons i rest ih =>
    intro cur
    cases h : delB i with
    | none => simp [eliminarTodosLoop, h, ih]
    | some e => simp [eliminarTodosLoop, h, ih]

lemma eliminarTodosLoop_errores (delB : Int → Option String)
    (orig : List Amigo) (ids : List Int) : ∀ cur : List Amigo,
    (eliminarTodosLoop delB orig ids cur).errores =
      ids.filterMap (fun i => (delB i).map (fun e => nombreDe orig i ++ ": " ++ e)) := by
  induction ids with
  | nil => intro cur; simp [eliminarTodosLoop]
  | cons i rest ih =>
    intro cur
    cases h : delB i with
    | none => simp [eliminarTodosLoop, h, ih, List.filterMap_cons]
    | some e => simp [eliminarTodosLoop, h, ih, List.filterMap_cons]

lemma eliminarTodosLoop_keeps_failures (delB : Int → Option String)
    (orig : List Amigo) (ids : List Int) : ∀ cur : List Amigo, ∀ a ∈ cur,
    (delB a.id).isSome → a ∈ (eliminarTodosLoop delB orig ids cur).amigos := by
  induction ids with
  | nil => intro cur a ha _; simpa [eliminarTodosLoop] using ha
  | cons i rest ih =>
    intro cur a ha hfail
    cases h : delB i with
    | none =>
      simp only [eliminarTodosLoop, h]
      refine ih _ a ?_ hfail
      refine List.mem_filter.mpr ⟨ha, ?_⟩
      simp only [decide_eq_true_eq]
      intro hai
      rw [hai, h] at hfail
      simp at hfail
    | some e =>
      simp only [eliminarTodosLoop, h]
      exact ih _ a ha hfail

/-- C8: with an empty friend list the bulk delete fails with the
nothing-to-delete error and issues no store call; with a non-empty list it
attempts the deletion of every id (the DELETE trace is the whole id list,
never stopping at a failure) and reports the number of successful
deletions, the total attempted, and one `name: reason` entry per failed
person; the persons whose deletion failed stay in the in-memory list. -/
theorem claim_C8_bulk_delete (delB : Int → Option String) (amigos : List Amigo) :
    (amigos = [] →
      eliminar_todos_amigos delB amigos = (Except.error BulkErr.noFriends, amigos, [])) ∧
    (amigos ≠ [] →
      (eliminar_todos_amigos delB amigos).1 =
          Except.ok ⟨(amigos.map (fun a => a.id)).countP (fun i => (delB i).isNone),
            amigos.length,
            (amigos.map (fun a => a.id)).filterMap
              (fun i => (delB i).map (fun e => nombreDe amigos i ++ ": " ++ e))⟩ ∧
        (eliminar_todos_amigos delB amigos).2.2 = amigos.map (fun a => a.id) ∧
        ∀ a ∈ amigos, (delB a.id).isSome →
          a ∈ (eliminar_todos_amigos delB amigos).2.1) := by
  constructor
  · intro h
    subst h
    rfl
  · intro h
    have hne : amigos.map (fun a => a.id) ≠ [] := by
      simpa using h
    refine ⟨?_, ?_, ?_⟩
    · simp only [eliminar_todos_amigos, if_neg hne]
      rw [eliminarTodosLoop_eliminados, eliminarTodosLoop_errores, List.length_map]
    · simp only [eliminar_todos_amigos, if_neg hne]
      rw [eliminarTodosLoop_trace]
    · intro a ha hfail
      simp only [eliminar_todos_amigos, if_neg hne]
      exact eliminarTodosLoop_keeps_failures delB amigos _ amigos a ha hfail

/-- C8 witness: of the three friends Ana, Bea, Carlos only Bea has a
pending balance at the store; the run deletes 2 of 3, reports the single
failure entry for Bea, and Bea stays in the in-memory list. -/
theorem claim_C8_witness :
    (eliminar_todos_amigos (fun i => if i = 2 then some "saldo pendiente" else none)
          [⟨1, "Ana", 0, 0⟩, ⟨2, "Bea", 5, 0⟩, ⟨3, "Carlos", 0, 0⟩]).1 =
        Except.ok ⟨2, 3, ["Bea: saldo pendiente"]⟩ ∧
      (⟨2, "Bea", 5, 0⟩ : Amigo) ∈
        (eliminar_todos_amigos (fun i => if i = 2 then some "saldo pendiente" else none)
          [⟨1, "Ana", 0, 0⟩, ⟨2, "Bea", 5, 0⟩, ⟨3, "Carlos", 0, 0⟩]).2.1 := by
  have h := (claim_C8_bulk_delete (fun i => if i = 2 then some "saldo pendiente" else none)
    [⟨1, "Ana", 0, 0⟩, ⟨2, "Bea", 5, 0⟩, ⟨3, "Carlos", 0, 0⟩]).2 (by simp)
  refine ⟨?_, h.2.2 ⟨2, "Bea", 5, 0⟩ (by simp) (by simp)⟩
  rw [h.1]
  rfl

/-! ## Create expense: store calls, exceptions and rollback (models.py, Main.add_gasto) -/

/-- The three request-level failures of the HTTP library relevant to the
engine; all three are subclasses of RequestException. -/
inductive ReqErr
  | connErr
  | timeout
  | httpErr (status : Nat)
deriving DecidableEq

/-- A Python exception as the engine sees it: either a request-level
exception (matched by the outer handlers of `add_gasto`) or a plain
`Exception msg` (matched by none of them). -/
inductive PyExc
  | requestExc (e : ReqErr)
  | plainExc (msg : String)
deriving DecidableEq

/-- One store call issued by `add_gasto`. -/
inductive StCall
  | createExpense
  | addParticipant (gasto_id friend_id : Int)
  | putShare (gasto_id friend_id : Int) (amount : ℚ)
  | deleteExpense (gasto_id : Int)
deriving DecidableEq

/-- The behaviour of the ledger store during one `add_gasto` run. -/
structure AddStore where
  createExpense : Except ReqErr Int
  addParticipant : Int → Int → Option ReqErr
  putShare : Int → Int → ℚ → Option ReqErr

/-- The message the outer handlers of `add_gasto` produce for a request
failure they catch (models.py lines 629-667). -/
def outerMsg : ReqErr → String
  | ReqErr.connErr => "No se puede conectar al servidor"
  | ReqErr.timeout => "El servidor tardo demasiado en responder"
  | ReqErr.httpErr _ => "Error al anadir gasto"

/-- Embeds the outer exception handlers of `add_gasto` (models.py lines
629-667): a request-level exception is caught, triggers the compensating
DELETE when an expense id was already assigned, and is re-raised with a
translated message; a plain exception matches none of the outer clauses
and propagates unchanged - with no compensation. -/
def outerCatch (gasto_id : Option Int) (e : PyExc) : PyExc × List StCall :=
  match e with
  | PyExc.requestExc re =>
    match gasto_id with
    | some g => (PyExc.plainExc (outerMsg re), [StCall.deleteExpense g])
    | none => (PyExc.plainExc (outerMsg re), [])
  | PyExc.plainExc m => (PyExc.plainExc m, [])

/-- Embeds step 2 of `add_gasto` (models.py lines 555-564): add every
participant; the inner handler wraps any request failure into a plain
exception. -/
def addParticipantsLoop (B : AddStore) (gid : Int) : List Int → List StCall × Option PyExc
  | [] => ([], none)
  | d :: ds =>
    match B.addParticipant gid d with
    | some _ =>
      ([StCall.addParticipant gid d],
        some (PyExc.plainExc ("Error al anadir participante " ++ toString d)))
    | none =>
      (StCall.addParticipant gid d :: (addParticipantsLoop B gid ds).1,
        (addParticipantsLoop B gid ds).2)

/-- Embeds step 4 of `add_gasto` (models.py lines 579-595): add the payer
as participant when needed and write the payer credit; the inner handler
wraps any request failure into a plain exception. -/
def configurarPagador (B : AddStore) (gid pag : Int) (inDeudores : Bool) (credito : ℚ) :
    List StCall × Option PyExc :=
  if inDeudores then
    match B.putShare gid pag credito with
    | some _ =>
      ([StCall.putShare gid pag credito], some (PyExc.plainExc "Error al configurar pagador"))
    | none => ([StCall.putShare gid pag credito], none)
  else
    match B.addParticipant gid pag with
    | some _ =>
      ([StCall.addParticipant gid pag], some (PyExc.plainExc "Error al configurar pagador"))
    | none =>
      match B.putShare gid pag credito with
      | some _ =>
        ([StCall.addParticipant gid pag, StCall.putShare gid pag credito],
          some (PyExc.plainExc "Error al configurar pagador"))
      | none =>
        ([StCall.addParticipant gid pag, StCall.putShare gid pag credito], none)

/-- Embeds step 5 of `add_gasto` (models.py lines 597-624): write the
negative debit amount for every participant (skipping the payer when the
payer participates); the inner handler wraps any request failure into a
plain exception. -/
def putDeudoresLoop (B : AddStore) (gid pag : Int) (amt : ℚ) (skipPagador : Bool) :
    List Int → List StCall × Option PyExc
  | [] => ([], none)
  | d :: ds =>
    if skipPagador && (d == pag) then
      putDeudoresLoop B gid pag amt skipPagador ds
    else
      match B.putShare gid d amt with
      | some _ =>
        ([StCall.putShare gid d amt],
          some (PyExc.plainExc ("Error al actualizar credito de deudor " ++ toString d)))
      | none =>
        (StCall.putShare gid d amt :: (putDeudoresLoop B gid pag amt skipPagador ds).1,
          (putDeudoresLoop B gid pag amt skipPagador ds).2)

/-- Embeds `Main.add_gasto` (models.py lines 511-667) at the level of store
calls and exception flow: step 1 creates the expense, steps 2-5 run under
per-step handlers that turn every request failure into a plain exception,
the outer handlers translate whatever reaches them, and the in-memory
expense list is only appended to after every step succeeded.  Returns the
call trace, the result, and the final in-memory expense id list. -/
def add_gasto_run (B : AddStore) (monto : ℚ) (pagador_id : Int) (deudores_ids : List Int)
    (gastos : List Int) : List StCall × Except PyExc Int × List Int :=
  match B.createExpense with
  | Except.error e =>
    (StCall.createExpense :: (outerCatch none (PyExc.requestExc e)).2,
      Except.error (outerCatch none (PyExc.requestExc e)).1, gastos)
  | Except.ok gid =>
    match (addParticipantsLoop B gid deudores_ids).2 with
    | some exc =>
      (StCall.createExpense :: (addParticipantsLoop B gid deudores_ids).1 ++
          (outerCatch (some gid) exc).2,
        Except.error (outerCatch (some gid) exc).1, gastos)
    | none =>
      match (configurarPagador B gid pagador_id (decide (pagador_id ∈ deudores_ids))
          (creditoPagador monto pagador_id deudores_ids)).2 with
      | some exc =>
        (StCall.createExpense :: (addParticipantsLoop B gid deudores_ids).1 ++
            (configurarPagador B gid pagador_id (decide (pagador_id ∈ deudores_ids))
              (creditoPagador monto pagador_id deudores_ids)).1 ++
            (outerCatch (some gid) exc).2,
          Except.error (outerCatch (some gid) exc).1, gastos)
      | none =>
        match (putDeudoresLoop B gid pagador_id (-monto / (deudores_ids.length : ℚ))
            (decide (pagador_id ∈ deudores_ids)) deudores_ids).2 with
        | some exc =>
          (StCall.createExpense :: (addParticipantsLoop B gid deudores_ids).1 ++
              (configurarPagador B gid pagador_id (decide (pagador_id ∈ deudores_ids))
                (creditoPagador monto pagador_id deudores_ids)).1 ++
              (putDeudoresLoop B gid pagador_id (-monto / (deudores_ids.length : ℚ))
                (decide (pagador_id ∈ deudores_ids)) deudores_ids).1 ++
              (outerCatch (some gid) exc).2,
            Except.error (outerCatch (some gid) exc).1, gastos)
        | none =>
          (StCall.createExpense :: (addParticipantsLoop B gid deudores_ids).1 ++
              (configurarPagador B gid pagador_id (decide (pagador_id ∈ deudores_ids))
                (creditoPagador monto pagador_id deudores_ids)).1 ++
              (putDeudoresLoop B gid pagador_id (-monto / (deudores_ids.length : ℚ))
                (decide (pagador_id ∈ deudores_ids)) deudores_ids).1,
            Except.ok gid, gastos ++ [gid])

lemma addParticipantsLoop_no_delete (B : AddStore) (gid : Int) (ds : List Int) (g : Int) :
    StCall.deleteExpense g ∉ (addParticipantsLoop B gid ds).1 := by
  induction ds with
  | nil => simp [addParticipantsLoop]
  | cons d ds ih =>
    cases h : B.addParticipant gid d with
    | none => simp [addParticipantsLoop, h, ih]
    | some e => simp [addParticipantsLoop, h]

lemma addParticipantsLoop_exc_plain (B : AddStore) (gid : Int) (ds : List Int) :
    (addParticipantsLoop B gid ds).2 = none ∨
      ∃ m, (addParticipantsLoop B gid ds).2 = some (PyExc.plainExc m) := by
  induction ds with
  | nil => left; rfl
  | cons d ds ih =>
    cases h : B.addParticipant gid d with
    | none => simpa [addParticipantsLoop, h] using ih
    | some e =>
      right
      exact ⟨"Error al anadir participante " ++ toString d, by simp [addParticipantsLoop, h]⟩

lemma configurarPagador_no_delete (B : AddStore) (gid pag : Int) (b : Bool) (c : ℚ)
    (g : Int) : StCall.deleteExpense g ∉ (configurarPagador B gid pag b c).1 := by
  cases b with
  | true =>
    cases h : B.putShare gid pag c with
    | none => simp [configurarPagador, h]
    | some e => simp [configurarPagador, h]
  | false =>
    cases h : B.addParticipant gid pag with
    | none =>
      cases h2 : B.putShare gid pag c with
      | none => simp [configurarPagador, h, h2]
      | some e => simp [configurarPagador, h, h2]
    | some e => simp [configurarPagador, h]

lemma configurarPagador_exc_plain (B : AddStore) (gid pag : Int) (b : Bool) (c : ℚ) :
    (configurarPagador B gid pag b c).2 = none ∨
      ∃ m, (configurarPagador B gid pag b c).2 = some (PyExc.plainExc m) := by
  cases b with
  | true =>
    cases h : B.putShare gid pag c with
    | none => left; simp [configurarPagador, h]
    | some e =>
      right
      exact ⟨"Error al configurar pagador", by simp [configurarPagador, h]⟩
  | false =>
    cases h : B.addParticipant gid pag with
    | none =>
      cases h2 : B.putShare gid pag c with
      | none => left; simp [configurarPagador, h, h2]
      | some e =>
        right
        exact ⟨"Error al configurar pagador", by simp [configurarPagador, h, h2]⟩
    | some e =>
      right
      exact ⟨"Error al configurar pagador", by simp [configurarPagador, h]⟩

lemma putDeudoresLoop_no_delete (B : AddStore) (gid pag : Int) (amt : ℚ) (b : Bool)
    (ds : List Int) (g : Int) :
    StCall.deleteExpense g ∉ (putDeudoresLoop B gid pag amt b ds).1 := by
  induction ds with
  | nil => simp [putDeudoresLoop]
  | cons d ds ih =>
    by_cases hb : (b && (d == pag)) = true
    · simpa [putDeudoresLoop, hb] using ih
    · cases h : B.putShare gid d amt with
      | none => simp [putDeudoresLoop, hb, h, ih]
      | some e => simp [putDeudoresLoop, hb, h]

lemma putDeudoresLoop_exc_plain (B : AddStore) (gid pag : Int) (amt : ℚ) (b : Bool)
    (ds : List Int) :
    (putDeudoresLoop B gid pag amt b ds).2 = none ∨
      ∃ m, (putDeudoresLoop B gid pag amt b ds).2 = some (PyExc.plainExc m) := by
  induction ds with
  | nil => left; rfl
  | cons d ds ih =>
    by_cases hb : (b && (d == pag)) = true
    · simpa [putDeudoresLoop, hb] using ih
    · cases h : B.putShare gid d amt with
      | none => simpa [putDeudoresLoop, hb, h] using ih
      | some e =>
        right
        exact ⟨"Error al actualizar credito de deudor " ++ toString d,
          by simp [putDeudoresLoop, hb, h]⟩

/-- C6 (the rollback never happens): over every store behaviour, every
amount, payer, participant list and starting in-memory list, the call trace
of `add_gasto` never contains a compensating DELETE of the created expense
- the per-step handlers turn each post-creation failure into a plain
exception that the outer handlers (which own the rollback code) cannot
match, so the rollback branch is unreachable.  The in-memory part of the
claim does hold: the expense list is extended exactly on success and left
unmodified on every failure path. -/
theorem claim_C6_no_rollback (B : AddStore) (monto : ℚ) (pagador_id : Int)
    (deudores_ids : List Int) (gastos : List Int) :
    (∀ g, StCall.deleteExpense g ∉
        (add_gasto_run B monto pagador_id deudores_ids gastos).1) ∧
    (match (add_gasto_run B monto pagador_id deudores_ids gastos).2.1 with
      | Except.ok gid =>
        (add_gasto_run B monto pagador_id deudores_ids gastos).2.2 = gastos ++ [gid]
      | Except.error _ =>
        (add_gasto_run B monto pagador_id deudores_ids gastos).2.2 = gastos) := by
  cases h1 : B.createExpense with
  | error e =>
    constructor
    · intro g
      simp [add_gasto_run, h1, outerCatch]
    · simp [add_gasto_run, h1, outerCatch]
  | ok gid =>
    rcases addParticipantsLoop_exc_plain B gid deudores_ids with h2 | ⟨m2, h2⟩
    · rcases configurarPagador_exc_plain B gid pagador_id
          (decide (pagador_id ∈ deudores_ids))
          (creditoPagador monto pagador_id deudores_ids) with h4 | ⟨m4, h4⟩
      · rcases putDeudoresLoop_exc_plain B gid pagador_id
            (-monto / (deudores_ids.length : ℚ))
            (decide (pagador_id ∈ deudores_ids)) deudores_ids with h5 | ⟨m5, h5⟩
        · constructor
          · intro g
            simp [add_gasto_run, h1, h2, h4, h5, addParticipantsLoop_no_delete,
              configurarPagador_no_delete, putDeudoresLoop_no_delete]
          · simp [add_gasto_run, h1, h2, h4, h5]
        · constructor
          · intro g
            simp [add_gasto_run, h1, h2, h4, h5, outerCatch,
              addParticipantsLoop_no_delete, configurarPagador_no_delete,
              putDeudoresLoop_no_delete]
          · simp [add_gasto_run, h1, h2, h4, h5, outerCatch]
      · constructor
        · intro g
          simp [add_gasto_run, h1, h2, h4, outerCatch,
            addParticipantsLoop_no_delete, configurarPagador_no_delete]
        · simp [add_gasto_run, h1, h2, h4, outerCatch]
    · constructor
      · intro g
        simp [add_gasto_run, h1, h2, outerCatch, addParticipantsLoop_no_delete]
      · simp [add_gasto_run, h1, h2, outerCatch]
